import Mathlib

/-!
Verification of the peer-pressure WebRTC peer library: a shallow embedding of
the negotiation, readiness, data-path and teardown state machine, with the
observable effects (emitted events, transport sends, callback invocations)
collected in traces.

Sources embedded: the Peer class and SignalingManager (signaling module), the
DataChannelManager (data-channel module), the StatsManager (stats module), the
MediaManager (media module).
-/

namespace PeerPressure

/-- An opaque data payload (the bytes of a chunk handed to write/send). -/
abbrev Chunk := List Nat

/-- A connectivity (ICE) candidate, identified by its candidate string. -/
structure Candidate where
  cand : String
  deriving DecidableEq

/-- The data channel as seen by this core: its buffered byte count, whether the
native bufferedAmountLowThreshold feature is supported (typeof check in
setupData / setupBackpressureInterval), and whether a synchronous channel.send
would throw (external failure injected by the environment). -/
structure Channel where
  bufferedAmount : Nat
  thresholdSupported : Bool
  sendFails : Bool
  deriving DecidableEq

/-- A queued microtask: the batched-negotiation body queued by
SignalingManager.needsNegotiation, or the destruction finalizer queued by
Peer._destroy (capturing whether an error was supplied). -/
inductive Task where
  | batchNego : Task
  | destroyFinalize : Bool → Task
  deriving DecidableEq

/-- Observable effects of the embedded code: event-emitter notifications,
transport sends, write-callback invocations (with whether an Error was passed),
candidate applications, started asynchronous engine operations, and a thrown
exception escaping a public entry point. -/
inductive Event where
  | emitConnect : Event
  | emitClose : Event
  | emitError : Event
  | emitSignalRenegotiate : Event
  | emitSignalTransceiverRequest : Event
  | offerScheduled : Event
  | channelSend : Chunk → Event
  | cbCall : Nat → Bool → Event
  | applyCandidate : Candidate → Event
  | setRemoteDescriptionStarted : Event
  | createAnswerStarted : Event
  | threwException : Event
  deriving DecidableEq

/-- The mutable session state shared by Peer and its managers (the PeerContext
fields used by the embedded methods). Write callbacks are identified by a
numeric id held in the cb slot; invoking one is recorded as an Event.cbCall.
Defaults mirror the Peer constructor's initial values. -/
structure PeerState where
  destroyed : Bool := false
  destroying : Bool := false
  connected : Bool := false
  connecting : Bool := false
  pcReady : Bool := false
  channelReady : Bool := false
  batchedNegotiation : Bool := false
  queuedNegotiation : Bool := false
  isNegotiating : Bool := false
  firstNegotiation : Bool := true
  initiator : Bool := false
  hasRemoteDescription : Bool := false
  pendingCandidates : List Candidate := []
  chunk : Option Chunk := none
  cb : Option Nat := none
  channel : Option Channel := none
  intervalActive : Bool := false
  senderMap : List (Nat × List (Nat × Bool)) := []
  sendersAwaitingStable : List (Nat × Nat) := []
  tasks : List Task := []
  deriving DecidableEq

/-- A freshly constructed, live session (all constructor defaults). -/
def liveState : PeerState := {}

/-- Peer._destroy, synchronous part: a no-op while already destroyed or
destroying; otherwise marks destroying and queues the finalizer microtask,
remembering whether an error was supplied. -/
def destroyCall (hasErr : Bool) (s : PeerState) : PeerState :=
  if s.destroyed || s.destroying then s
  else { s with destroying := true, tasks := s.tasks ++ [Task.destroyFinalize hasErr] }

/-- SignalingManager.needsNegotiation: returns if a batch is already
scheduled, otherwise sets the batched flag and queues the batch microtask. -/
def needsNegotiation (s : PeerState) : PeerState :=
  if s.batchedNegotiation then s
  else { s with batchedNegotiation := true, tasks := s.tasks ++ [Task.batchNego] }

/-- SignalingManager.negotiate: returns while destroying, throws after
destroyed; an initiator schedules offer creation on a fresh task unless a
negotiation is in flight (then only queues); a responder emits a renegotiate
signal under the same rule; sets the in-flight flag. -/
def negotiate (s : PeerState) : PeerState × List Event :=
  if s.destroying then (s, [])
  else if s.destroyed then (s, [Event.threwException])
  else if s.initiator then
    if s.isNegotiating then ({ s with queuedNegotiation := true }, [])
    else ({ s with isNegotiating := true }, [Event.offerScheduled])
  else
    if s.isNegotiating then ({ s with queuedNegotiation := true }, [])
    else ({ s with isNegotiating := true }, [Event.emitSignalRenegotiate])

/-- The body of the batched-negotiation microtask queued by needsNegotiation:
clears the batched flag, suppresses the very first non-initiator opportunity,
otherwise calls negotiate; clears the first-negotiation marker. -/
def runBatchNego (s : PeerState) : PeerState × List Event :=
  let s0 := { s with batchedNegotiation := false }
  let shouldNegotiate := s0.initiator || !s0.firstNegotiation
  if !shouldNegotiate then ({ s0 with firstNegotiation := false }, [])
  else
    let r := negotiate s0
    ({ r.1 with firstNegotiation := false }, r.2)

/-- The destruction finalizer microtask queued by Peer._destroy: flips to
destroyed, clears readiness flags and both write slots, cancels timers
(interval cleared by DataChannelManager.cleanup), drops the channel, then
emits error (if one was supplied) followed by close. -/
def runDestroyFinalize (hasErr : Bool) (s : PeerState) : PeerState × List Event :=
  let s1 := { s with
    destroyed := true, destroying := false,
    connected := false, pcReady := false, channelReady := false,
    chunk := none, cb := none,
    intervalActive := false, channel := none }
  (s1, (if hasErr then [Event.emitError] else []) ++ [Event.emitClose])

/-- Dispatch one queued microtask. -/
def runTask (s : PeerState) (t : Task) : PeerState × List Event :=
  match t with
  | Task.batchNego => runBatchNego s
  | Task.destroyFinalize hasErr => runDestroyFinalize hasErr s

/-- Run a list of queued microtasks in order, concatenating their traces. -/
def runTasks (s : PeerState) (ts : List Task) : PeerState × List Event :=
  match ts with
  | [] => (s, [])
  | t :: rest =>
    let r1 := runTask s t
    let r2 := runTasks r1.1 rest
    (r2.1, r1.2 ++ r2.2)

/-- Drain the microtask queue of a state (run the current synchronous window
to completion). -/
def drain (s : PeerState) : PeerState × List Event :=
  runTasks { s with tasks := [] } s.tasks

/-- Outcome of the transport send primitive Peer.send: returned silently while
destroying (nothing sent), threw (after destroyed, on a missing channel, or on
a synchronous channel.send failure), or sent the chunk. -/
inductive SendOutcome where
  | sent : SendOutcome
  | returnedNoSend : SendOutcome
  | threw : SendOutcome
  deriving DecidableEq

/-- How a call to Peer.send on the current state resolves. -/
def sendAttempt (s : PeerState) : SendOutcome :=
  if s.destroying then SendOutcome.returnedNoSend
  else if s.destroyed then SendOutcome.threw
  else
    match s.channel with
    | none => SendOutcome.threw
    | some ch => if ch.sendFails then SendOutcome.threw else SendOutcome.sent

/-- Peer.send as a public entry point (uncaught throws recorded as events). -/
def sendEntry (s : PeerState) (c : Chunk) : PeerState × List Event :=
  match sendAttempt s with
  | SendOutcome.returnedNoSend => (s, [])
  | SendOutcome.threw => (s, [Event.threwException])
  | SendOutcome.sent => (s, [Event.channelSend c])

/-- DataChannelManager.write: rejects via the callback after destroyed;
buffers the chunk and callback in the pending-write slot while not connected;
otherwise sends (a synchronous send failure destroys the session), then either
stores the callback when buffered bytes exceed the 64 KiB high-watermark or
invokes it immediately with no error. -/
def write (s : PeerState) (c : Chunk) (i : Nat) : PeerState × List Event :=
  if s.destroyed then (s, [Event.cbCall i true])
  else if !s.connected then ({ s with chunk := some c, cb := some i }, [])
  else
    match sendAttempt s with
    | SendOutcome.threw => (destroyCall true s, [])
    | SendOutcome.returnedNoSend =>
      match s.channel with
      | none => (s, [Event.cbCall i true])
      | some ch =>
        if ch.bufferedAmount > 64 * 1024 then ({ s with cb := some i }, [])
        else (s, [Event.cbCall i false])
    | SendOutcome.sent =>
      match s.channel with
      | none => (s, [Event.channelSend c, Event.cbCall i true])
      | some ch =>
        if ch.bufferedAmount > 64 * 1024 then ({ s with cb := some i }, [Event.channelSend c])
        else (s, [Event.channelSend c, Event.cbCall i false])

/-- DataChannelManager.onChannelBufferedAmountLow: after destroyed or with an
empty backpressure slot it does nothing; otherwise it takes the stored
callback out of the slot and invokes it once with no error. -/
def onChannelBufferedAmountLow (s : PeerState) : PeerState × List Event :=
  if s.destroyed then (s, [])
  else
    match s.cb with
    | none => (s, [])
    | some i => ({ s with cb := none }, [Event.cbCall i false])

/-- Peer._onInterval, the body of the 150ms fallback backpressure poll: fires
the release only when a callback is stored, a channel exists, and buffered
bytes are no longer above the 64 KiB high-watermark. -/
def onIntervalFn (s : PeerState) : PeerState × List Event :=
  match s.cb with
  | none => (s, [])
  | some _ =>
    match s.channel with
    | none => (s, [])
    | some ch =>
      if ch.bufferedAmount > 64 * 1024 then (s, [])
      else onChannelBufferedAmountLow s

/-- StatsManager.handlePendingChunk: replays the pending write on readiness.
Nothing happens with an empty slot; a synchronous send failure destroys the
session and leaves early; otherwise the slot is cleared and the stored
callback (if any) is taken out and invoked with no error. -/
def handlePendingChunk (s : PeerState) : PeerState × List Event :=
  match s.chunk with
  | none => (s, [])
  | some c =>
    match sendAttempt s with
    | SendOutcome.threw => (destroyCall true s, [])
    | SendOutcome.returnedNoSend =>
      let s1 := { s with chunk := none }
      match s1.cb with
      | none => ({ s1 with cb := none }, [])
      | some i => ({ s1 with cb := none }, [Event.cbCall i false])
    | SendOutcome.sent =>
      let s1 := { s with chunk := none }
      match s1.cb with
      | none => ({ s1 with cb := none }, [Event.channelSend c])
      | some i => ({ s1 with cb := none }, [Event.channelSend c, Event.cbCall i false])

/-- StatsManager.setupBackpressureInterval: installs the 150ms fallback poll
only when a channel exists and the native bufferedAmountLowThreshold feature
is unsupported. -/
def setupBackpressureInterval (s : PeerState) : PeerState :=
  match s.channel with
  | none => s
  | some ch => if ch.thresholdSupported then s else { s with intervalActive := true }

/-- The tail of StatsManager.findCandidatePair once the wait condition is
false: clear connecting, set connected, replay the pending write, install the
fallback poll if needed, and emit the connect notification. -/
def readyStep (s : PeerState) : PeerState × List Event :=
  let s0 := { s with connecting := false, connected := true }
  let r1 := handlePendingChunk s0
  let s2 := setupBackpressureInterval r1.1
  (s2, r1.2 ++ [Event.emitConnect])

/-- StatsManager.maybeReady: a no-op unless not connected, not already
confirming, transport-ready and channel-ready all hold; then it enters the
confirming state (and starts the candidate-pair statistics search). -/
def maybeReady (s : PeerState) : PeerState :=
  if s.connected then s
  else if s.connecting then s
  else if !s.pcReady then s
  else if !s.channelReady then s
  else { s with connecting := true }

/-- One report item of a statistics query, with the fields that
StatsManager.findCandidatePair inspects. -/
structure StatsItem where
  type : String
  id : String
  selectedCandidatePairId : Option String
  selected : Bool
  googActiveConnection : Bool
  deriving DecidableEq

/-- Ids collected into the candidatePairs map of findCandidatePair. -/
def candidatePairIds (items : List StatsItem) : List String :=
  (items.filter (fun i => i.type == "candidatepair" || i.type == "candidate-pair")).map
    (fun i => i.id)

/-- Ids collected into the localCandidates map of findCandidatePair. -/
def localCandidateIds (items : List StatsItem) : List String :=
  (items.filter (fun i => i.type == "localcandidate" || i.type == "local-candidate")).map
    (fun i => i.id)

/-- Whether one report item causes setSelectedCandidatePair to run: a
spec-compliant transport item whose selectedCandidatePairId is present in the
candidatePairs map, an active googCandidatePair, or a candidate-pair item
marked selected. -/
def itemSelectsPair (items : List StatsItem) (i : StatsItem) : Bool :=
  (i.type == "transport" &&
    (match i.selectedCandidatePairId with
     | some pid => (candidatePairIds items).contains pid
     | none => false)) ||
  (i.type == "googCandidatePair" && i.googActiveConnection) ||
  ((i.type == "candidatepair" || i.type == "candidate-pair") && i.selected)

/-- Whether a statistics round found the selected candidate pair. -/
def foundSelectedPair (items : List StatsItem) : Bool :=
  items.any (itemSelectsPair items)

/-- The retry condition of findCandidatePair: no selected pair was found and
either no candidate pair is available yet or local candidates exist (so the
authoritative pair may still appear); while true the code re-polls after
100ms. -/
def shouldWaitRound (items : List StatsItem) : Bool :=
  !foundSelectedPair items &&
    ((candidatePairIds items).isEmpty || !(localCandidateIds items).isEmpty)

/-- The first round index at which the findCandidatePair retry loop stops
waiting, searching from round k with the given fuel; none when every examined
round keeps waiting. -/
def firstCompleteRoundAux (oracle : Nat → List StatsItem) : Nat → Nat → Option Nat
  | _, 0 => none
  | k, fuel + 1 =>
    if shouldWaitRound (oracle k) then firstCompleteRoundAux oracle (k + 1) fuel
    else some k

/-- The round at which the retry loop of findCandidatePair completes (and the
session becomes connected), searching from round 0. -/
def firstCompleteRound (oracle : Nat → List StatsItem) (fuel : Nat) : Option Nat :=
  firstCompleteRoundAux oracle 0 fuel

/-- Look up a track's submap in the sender map. -/
def submapFor (m : List (Nat × List (Nat × Bool))) (track : Nat) :
    Option (List (Nat × Bool)) :=
  (m.find? (fun e => e.1 == track)).map (fun e => e.2)

/-- Store a track's submap in the sender map, replacing an existing entry. -/
def setSubmap (m : List (Nat × List (Nat × Bool))) (track : Nat)
    (sub : List (Nat × Bool)) : List (Nat × List (Nat × Bool)) :=
  if (m.find? (fun e => e.1 == track)).isSome then
    m.map (fun e => if e.1 == track then (track, sub) else e)
  else m ++ [(track, sub)]

/-- Look up the sender for a stream in a submap; the Bool is its removed
flag. -/
def findSender (sub : List (Nat × Bool)) (stream : Nat) : Option Bool :=
  (sub.find? (fun e => e.1 == stream)).map (fun e => e.2)

/-- MediaManager.addTrack: guarded on destroying/destroyed; throws if the
(track, stream) sender was removed or already added; otherwise records the
new sender and requests negotiation. -/
def addTrack (s : PeerState) (track stream : Nat) : PeerState × List Event :=
  if s.destroying then (s, [])
  else if s.destroyed then (s, [Event.threwException])
  else
    let submap := (submapFor s.senderMap track).getD []
    match findSender submap stream with
    | some true => (s, [Event.threwException])
    | some false => (s, [Event.threwException])
    | none =>
      let s1 := { s with senderMap := setSubmap s.senderMap track (submap ++ [(stream, false)]) }
      (needsNegotiation s1, [])

/-- The iteration of MediaManager.addStream over a stream's tracks; a thrown
addTrack aborts the iteration as in the source. -/
def addTracksLoop (stream : Nat) : PeerState → List Nat → PeerState × List Event
  | s, [] => (s, [])
  | s, t :: rest =>
    let r := addTrack s t stream
    if r.2.contains Event.threwException then (r.1, r.2)
    else
      let r2 := addTracksLoop stream r.1 rest
      (r2.1, r.2 ++ r2.2)

/-- MediaManager.addStream: guarded on destroying/destroyed, then adds each
track of the stream. -/
def addStream (s : PeerState) (tracks : List Nat) (stream : Nat) : PeerState × List Event :=
  if s.destroying then (s, [])
  else if s.destroyed then (s, [Event.threwException])
  else addTracksLoop stream s tracks

/-- MediaManager.replaceTrack: guarded on destroying/destroyed; throws if the
(oldTrack, stream) sender was never added; registers the submap under the new
track; destroys the session when the engine lacks replaceTrack support,
otherwise delegates the replacement to the engine. -/
def replaceTrack (s : PeerState) (oldTrack : Nat) (newTrack : Option Nat) (stream : Nat)
    (replaceSupported : Bool) : PeerState × List Event :=
  if s.destroying then (s, [])
  else if s.destroyed then (s, [Event.threwException])
  else
    match submapFor s.senderMap oldTrack with
    | none => (s, [Event.threwException])
    | some submap =>
      match findSender submap stream with
      | none => (s, [Event.threwException])
      | some _ =>
        let s1 :=
          match newTrack with
          | some nt => { s with senderMap := setSubmap s.senderMap nt submap }
          | none => s
        if !replaceSupported then (destroyCall true s1, [])
        else (s1, [])

/-- How the engine call pc.removeTrack resolves (external environment). -/
inductive RemoveOutcome where
  | ok : RemoveOutcome
  | nsErrorUnexpected : RemoveOutcome
  | otherError : RemoveOutcome
  deriving DecidableEq

/-- Mark a sender's removed flag in the sender map. -/
def markRemoved (m : List (Nat × List (Nat × Bool))) (track stream : Nat) :
    List (Nat × List (Nat × Bool)) :=
  m.map (fun e =>
    if e.1 == track then
      (e.1, e.2.map (fun p => if p.1 == stream then (p.1, true) else p))
    else e)

/-- MediaManager.removeTrack: guarded on destroying/destroyed; throws if the
sender was never added; marks it removed, then depending on how
pc.removeTrack resolves either proceeds, defers the engine removal until the
stable signaling state (Firefox workaround), or destroys the session; the
surviving paths request negotiation. -/
def removeTrack (s : PeerState) (track stream : Nat) (outcome : RemoveOutcome) :
    PeerState × List Event :=
  if s.destroying then (s, [])
  else if s.destroyed then (s, [Event.threwException])
  else
    match submapFor s.senderMap track with
    | none => (s, [Event.threwException])
    | some submap =>
      match findSender submap stream with
      | none => (s, [Event.threwException])
      | some _ =>
        let s1 := { s with senderMap := markRemoved s.senderMap track stream }
        match outcome with
        | RemoveOutcome.ok => (needsNegotiation s1, [])
        | RemoveOutcome.nsErrorUnexpected =>
          (needsNegotiation
            { s1 with sendersAwaitingStable := s1.sendersAwaitingStable ++ [(track, stream)] }, [])
        | RemoveOutcome.otherError => (destroyCall true s1, [])

/-- The iteration of MediaManager.removeStream over a stream's tracks; a
thrown removeTrack aborts the iteration as in the source. -/
def removeTracksLoop (stream : Nat) (outcome : Nat → RemoveOutcome) :
    PeerState → List Nat → PeerState × List Event
  | s, [] => (s, [])
  | s, t :: rest =>
    let r := removeTrack s t stream (outcome t)
    if r.2.contains Event.threwException then (r.1, r.2)
    else
      let r2 := removeTracksLoop stream outcome r.1 rest
      (r2.1, r.2 ++ r2.2)

/-- MediaManager.removeStream: guarded on destroying/destroyed, then removes
each track of the stream. -/
def removeStream (s : PeerState) (tracks : List Nat) (stream : Nat)
    (outcome : Nat → RemoveOutcome) : PeerState × List Event :=
  if s.destroying then (s, [])
  else if s.destroyed then (s, [Event.threwException])
  else removeTracksLoop stream outcome s tracks

/-- MediaManager.addTransceiver (the transceiver kind and init are opaque and
omitted): guarded on destroying/destroyed; an initiator adds the transceiver
on the engine (a failure destroys the session) and requests negotiation, a
responder emits a transceiverRequest signal. -/
def addTransceiverEntry (s : PeerState) (addFails : Bool) : PeerState × List Event :=
  if s.destroying then (s, [])
  else if s.destroyed then (s, [Event.threwException])
  else if s.initiator then
    if addFails then (destroyCall true s, [])
    else (needsNegotiation s, [])
  else (s, [Event.emitSignalTransceiverRequest])

/-- A parsed signaling payload as Peer.signal sees it after the optional JSON
parse (a string that fails to parse yields the empty payload): presence of
the four recognized fields, truthiness of renegotiate. -/
structure SignalPayload where
  renegotiate : Bool := false
  transceiverRequest : Bool := false
  candidate : Option Candidate := none
  sdp : Option String := none
  deriving DecidableEq

/-- Peer.signal: returns while destroying, throws after destroyed; then
routes the recognized fields independently: a renegotiate flag (initiator
only) requests negotiation, a transceiverRequest (initiator only) adds a
transceiver, a candidate is applied immediately when a remote description is
present and buffered otherwise, an sdp body starts setRemoteDescription;
finally, a payload with none of the recognized fields destroys the session
with an error. -/
def signal (addTransceiverFails : Bool) (s : PeerState) (p : SignalPayload) :
    PeerState × List Event :=
  if s.destroying then (s, [])
  else if s.destroyed then (s, [Event.threwException])
  else
    let r1 : PeerState × List Event :=
      if p.renegotiate && s.initiator then (needsNegotiation s, []) else (s, [])
    let r2 : PeerState × List Event :=
      if p.transceiverRequest && r1.1.initiator then
        let ra := addTransceiverEntry r1.1 addTransceiverFails
        (ra.1, r1.2 ++ ra.2)
      else r1
    let r3 : PeerState × List Event :=
      match p.candidate with
      | some c =>
        if r2.1.hasRemoteDescription then (r2.1, r2.2 ++ [Event.applyCandidate c])
        else ({ r2.1 with pendingCandidates := r2.1.pendingCandidates ++ [c] }, r2.2)
      | none => r2
    let r4 : PeerState × List Event :=
      match p.sdp with
      | some _ => (r3.1, r3.2 ++ [Event.setRemoteDescriptionStarted])
      | none => r3
    let hasValid := p.sdp.isSome || p.candidate.isSome || p.renegotiate || p.transceiverRequest
    if hasValid then r4 else (destroyCall true r4.1, r4.2)

/-- The continuation of Peer._handleRemoteDescription once setRemoteDescription
resolves successfully (at which point the engine holds the accepted remote
description): unless destroyed, applies every buffered candidate in arrival
order, clears the buffer, and creates an answer when the accepted description
was an offer. -/
def handleRemoteDescSuccess (s : PeerState) (descType : String) : PeerState × List Event :=
  if s.destroyed then (s, [])
  else
    let evts := s.pendingCandidates.map Event.applyCandidate
    let s1 := { s with pendingCandidates := [], hasRemoteDescription := true }
    if descType == "offer" then (s1, evts ++ [Event.createAnswerStarted])
    else (s1, evts)

/-- An incoming data-channel message: the channel's binaryType is set to
arraybuffer at setup, so messages are ArrayBuffers or strings. -/
inductive ChannelMessage where
  | binary : List Nat → ChannelMessage
  | text : String → ChannelMessage
  deriving DecidableEq

/-- A payload delivered to the application by the data notification. -/
inductive DeliveredData where
  | bytes : List Nat → DeliveredData
  | txt : String → DeliveredData
  deriving DecidableEq

/-- UTF-8 encoding of one code point (the standard encoding a TextEncoder
produces). -/
def utf8CodePoint (c : Nat) : List Nat :=
  if c < 0x80 then [c]
  else if c < 0x800 then [0xC0 ||| (c >>> 6), 0x80 ||| (c &&& 0x3F)]
  else if c < 0x10000 then
    [0xE0 ||| (c >>> 12), 0x80 ||| ((c >>> 6) &&& 0x3F), 0x80 ||| (c &&& 0x3F)]
  else
    [0xF0 ||| (c >>> 18), 0x80 ||| ((c >>> 12) &&& 0x3F),
     0x80 ||| ((c >>> 6) &&& 0x3F), 0x80 ||| (c &&& 0x3F)]

/-- The UTF-8 encoding a TextEncoder produces for a string, as a byte list. -/
def utf8Bytes (s : String) : List Nat :=
  s.data.flatMap (fun ch => utf8CodePoint ch.toNat)

/-- DataChannelManager.onChannelMessage: drops messages after destroyed;
wraps an incoming ArrayBuffer as a Uint8Array; outside objectMode UTF-8
encodes an incoming string to a Uint8Array; in objectMode delivers a string
unchanged. -/
def onChannelMessage (objectMode wasDestroyed : Bool) (m : ChannelMessage) :
    Option DeliveredData :=
  if wasDestroyed then none
  else
    match m with
    | ChannelMessage.binary b => some (DeliveredData.bytes b)
    | ChannelMessage.text str =>
      if !objectMode then some (DeliveredData.bytes (utf8Bytes str))
      else some (DeliveredData.txt str)

/-- A sequence of destroy calls applied in order. -/
def destroySeq (s : PeerState) (errs : List Bool) : PeerState :=
  errs.foldl (fun st er => destroyCall er st) s

/-- A signaling payload carrying only a candidate. -/
def candOnly (c : Candidate) : SignalPayload := { candidate := some c }

/-- A sequence of candidate-only signal calls applied in order. -/
def signalMany (s : PeerState) (cs : List Candidate) : PeerState :=
  cs.foldl (fun st c => (signal false st (candOnly c)).1) s

/-- The payload with none of the recognized fields. -/
def emptyPayload : SignalPayload := {}

lemma needsNegotiation_of_batched (s : PeerState) (h : s.batchedNegotiation = true) :
    needsNegotiation s = s := by
  simp [needsNegotiation, h]

lemma needsNegotiation_iterate_of_batched (s : PeerState) (n : Nat)
    (h : s.batchedNegotiation = true) : needsNegotiation^[n] s = s := by
  induction n with
  | zero => rfl
  | succ n ih =>
    rw [Function.iterate_succ_apply, needsNegotiation_of_batched s h, ih]

/-- Claim C2: within one synchronous scheduling window (before the batching
microtask runs), any sequence of one or more needsNegotiation calls schedules
exactly one batched-negotiation task: the first call sets the batch-scheduled
flag and appends the single task, and every further call in the window leaves
the state untouched. Hence at most one negotiation attempt executes for the
whole window. -/
theorem claim2_negotiation_batching (s : PeerState) (n : Nat)
    (h : s.batchedNegotiation = false) :
    needsNegotiation^[n + 1] s =
      { s with batchedNegotiation := true, tasks := s.tasks ++ [Task.batchNego] } := by
  rw [Function.iterate_succ_apply]
  have h1 : needsNegotiation s =
      { s with batchedNegotiation := true, tasks := s.tasks ++ [Task.batchNego] } := by
    simp [needsNegotiation, h]
  rw [h1]
  exact needsNegotiation_iterate_of_batched _ n rfl

/-- Witness for claim C2 at a concrete input: three synchronous calls on a
fresh session queue exactly one batch task. -/
theorem claim2_negotiation_batching_witness :
    needsNegotiation^[3] liveState =
      { liveState with batchedNegotiation := true, tasks := [Task.batchNego] } :=
  claim2_negotiation_batching liveState 2 rfl

/-- Claim C10: with objectMode false every delivered payload is a byte array:
an ArrayBuffer message is wrapped as its bytes and a string message is UTF-8
encoded; with objectMode true a string message is delivered unchanged. -/
theorem claim10_data_conversion :
    (∀ b, onChannelMessage false false (ChannelMessage.binary b) =
      some (DeliveredData.bytes b)) ∧
    (∀ str, onChannelMessage false false (ChannelMessage.text str) =
      some (DeliveredData.bytes (utf8Bytes str))) ∧
    (∀ m d, onChannelMessage false false m = some d → ∃ bs, d = DeliveredData.bytes bs) ∧
    (∀ str, onChannelMessage true false (ChannelMessage.text str) =
      some (DeliveredData.txt str)) := by
  refine ⟨fun b => rfl, fun str => rfl, ?_, fun str => rfl⟩
  intro m d h
  cases m with
  | binary b =>
    refine ⟨b, ?_⟩
    simp [onChannelMessage] at h
    exact h.symm
  | text str =>
    refine ⟨utf8Bytes str, ?_⟩
    simp [onChannelMessage] at h
    exact h.symm

/-- Witness for claim C10 at a concrete input: the delivered form of the
string message hi outside objectMode is a byte array. -/
theorem claim10_data_conversion_witness :
    ∃ bs, DeliveredData.bytes (utf8Bytes "hi") = DeliveredData.bytes bs :=
  claim10_data_conversion.2.2.1 (ChannelMessage.text "hi")
    (DeliveredData.bytes (utf8Bytes "hi")) rfl

/-- Counterexample to claim C9 as stated: during the destroying window
(destroy called, finalizer not yet run) on a never-connected session, write
does not behave as a no-op — it mutates session state by buffering the chunk
and callback into the pending-write slot (write guards only on destroyed,
not destroying). -/
theorem claim9_noop_after_destroy_cex :
    (write { liveState with destroying := true } [1] 0).1.chunk = some [1] ∧
    (write { liveState with destroying := true } [1] 0).1 ≠
      { liveState with destroying := true } := by
  exact ⟨by decide, by decide⟩

/-- Claim C9 amended: once destroying or destroyed, signal, send, negotiate
and all track/stream operations leave the session state unchanged (returning
silently while destroying, rejecting with an exception once destroyed); write
leaves the state unchanged once destroyed (rejecting through its callback),
but during the destroying window write is not guarded and may still buffer a
pending chunk. -/
theorem claim9_amended (s : PeerState)
    (h : s.destroying = true ∨ s.destroyed = true) :
    (∀ env p, (signal env s p).1 = s) ∧
    (∀ c, (sendEntry s c).1 = s) ∧
    (negotiate s).1 = s ∧
    (∀ t st, (addTrack s t st).1 = s) ∧
    (∀ ts st, (addStream s ts st).1 = s) ∧
    (∀ ot nt st cap, (replaceTrack s ot nt st cap).1 = s) ∧
    (∀ t st out, (removeTrack s t st out).1 = s) ∧
    (∀ ts st env2, (removeStream s ts st env2).1 = s) ∧
    (∀ af, (addTransceiverEntry s af).1 = s) ∧
    (s.destroyed = true → ∀ c i, (write s c i).1 = s) := by
  have key : s.destroying = true ∨ (s.destroying = false ∧ s.destroyed = true) := by
    rcases h with h | h
    · exact Or.inl h
    · by_cases hd : s.destroying
      · exact Or.inl hd
      · exact Or.inr ⟨by simpa using hd, h⟩
  rcases key with hd | ⟨hd, hdd⟩
  · exact ⟨fun env p => by simp [signal, hd],
      fun c => by simp [sendEntry, sendAttempt, hd],
      by simp [negotiate, hd],
      fun t st => by simp [addTrack, hd],
      fun ts st => by simp [addStream, hd],
      fun ot nt st cap => by simp [replaceTrack, hd],
      fun t st out => by simp [removeTrack, hd],
      fun ts st env2 => by simp [removeStream, hd],
      fun af => by simp [addTransceiverEntry, hd],
      fun hdd c i => by simp [write, hdd]⟩
  · exact ⟨fun env p => by simp [signal, hd, hdd],
      fun c => by simp [sendEntry, sendAttempt, hd, hdd],
      by simp [negotiate, hd, hdd],
      fun t st => by simp [addTrack, hd, hdd],
      fun ts st => by simp [addStream, hd, hdd],
      fun ot nt st cap => by simp [replaceTrack, hd, hdd],
      fun t st out => by simp [removeTrack, hd, hdd],
      fun ts st env2 => by simp [removeStream, hd, hdd],
      fun af => by simp [addTransceiverEntry, hd, hdd],
      fun _ c i => by simp [write, hdd]⟩

/-- Witness for the amended claim C9 at a concrete input: negotiate on a
destroyed session leaves the state unchanged. -/
theorem claim9_amended_witness :
    (negotiate { liveState with destroyed := true }).1 =
      { liveState with destroyed := true } :=
  (claim9_amended { liveState with destroyed := true } (Or.inr rfl)).2.2.1

/-- Counterexample to claim C7 as stated: a signal call on a live session with
the payload carrying none of the recognized fields does destroy the session —
the synchronous part marks it destroying, and draining the queued finalizer
marks it destroyed and emits error followed by close. -/
theorem claim7_invalid_signal_cex :
    (signal false liveState emptyPayload).1.destroying = true ∧
    (drain (signal false liveState emptyPayload).1).1.destroyed = true ∧
    (drain (signal false liveState emptyPayload).1).2 =
      [Event.emitError, Event.emitClose] := by
  exact ⟨by decide, by decide, by decide⟩

/-- Claim C7 amended: a signal call on a live session whose payload (after
optional JSON parsing) contains none of the recognized fields (sdp,
candidate, renegotiate, transceiverRequest) is rejected by destroying the
session with an error: the call is fatal to this session, which emits error
followed by close. -/
theorem claim7_amended (env : Bool) (s : PeerState) (p : SignalPayload)
    (hr : p.renegotiate = false) (ht : p.transceiverRequest = false)
    (hc : p.candidate = none) (hs : p.sdp = none)
    (h1 : s.destroying = false) (h2 : s.destroyed = false) (h3 : s.tasks = []) :
    signal env s p = (destroyCall true s, []) ∧
    (drain (destroyCall true s)).1.destroyed = true ∧
    (drain (destroyCall true s)).2 = [Event.emitError, Event.emitClose] := by
  have hd : destroyCall true s =
      { s with destroying := true, tasks := [Task.destroyFinalize true] } := by
    simp [destroyCall, h1, h2, h3]
  refine ⟨?_, ?_, ?_⟩
  · simp [signal, hr, ht, hc, hs, h1, h2]
  · rw [hd]; simp [drain, runTasks, runTask, runDestroyFinalize]
  · rw [hd]; simp [drain, runTasks, runTask, runDestroyFinalize]

/-- Witness for the amended claim C7 at a concrete input: the empty payload
on a fresh live session. -/
theorem claim7_amended_witness :
    signal false liveState emptyPayload = (destroyCall true liveState, []) ∧
    (drain (destroyCall true liveState)).1.destroyed = true ∧
    (drain (destroyCall true liveState)).2 = [Event.emitError, Event.emitClose] :=
  claim7_amended false liveState emptyPayload rfl rfl rfl rfl rfl rfl rfl

/-- Counterexample to claim C8 as stated: destroying a session whose
pending-write slot holds a chunk and callback produces a trace that is
exactly the close notification — the slot is cleared but no error (indeed no
invocation at all) is delivered to the pending write's callback. -/
theorem claim8_pending_write_cex :
    (drain (destroyCall false { liveState with chunk := some [7], cb := some 0 })).2 =
      [Event.emitClose] ∧
    (drain (destroyCall false { liveState with chunk := some [7], cb := some 0 })).1.chunk =
      none ∧
    (drain (destroyCall false { liveState with chunk := some [7], cb := some 0 })).1.cb =
      none := by
  exact ⟨by decide, by decide, by decide⟩

/-- Claim C8 amended: if the pending-write slot is still populated when
destruction runs, the destruction finalizer clears the slot without invoking
the pending write's completion callback: the trace of the finalizer holds
only the optional error notification and the close notification, never a
callback invocation. -/
theorem claim8_amended (s : PeerState) (e : Bool) (c : Chunk) (i : Nat)
    (_hc : s.chunk = some c) (_hcb : s.cb = some i)
    (h1 : s.destroying = false) (h2 : s.destroyed = false) (h3 : s.tasks = []) :
    (drain (destroyCall e s)).1.chunk = none ∧
    (drain (destroyCall e s)).1.cb = none ∧
    (drain (destroyCall e s)).2 =
      (if e then [Event.emitError] else []) ++ [Event.emitClose] := by
  have hd : destroyCall e s =
      { s with destroying := true, tasks := [Task.destroyFinalize e] } := by
    simp [destroyCall, h1, h2, h3]
  rw [hd]
  refine ⟨?_, ?_, ?_⟩ <;> simp [drain, runTasks, runTask, runDestroyFinalize]

/-- Witness for the amended claim C8 at a concrete input: a session with a
pending chunk and callback, destroyed with an error supplied. -/
theorem claim8_amended_witness :
    (drain (destroyCall true { liveState with chunk := some [7], cb := some 0 })).1.chunk =
      none ∧
    (drain (destroyCall true { liveState with chunk := some [7], cb := some 0 })).1.cb =
      none ∧
    (drain (destroyCall true { liveState with chunk := some [7], cb := some 0 })).2 =
      (if true then [Event.emitError] else []) ++ [Event.emitClose] :=
  claim8_amended { liveState with chunk := some [7], cb := some 0 } true [7] 0
    rfl rfl rfl rfl rfl

lemma destroyCall_of_destroying (e : Bool) (s : PeerState) (h : s.destroying = true) :
    destroyCall e s = s := by
  simp [destroyCall, h]

lemma destroySeq_of_destroying (s : PeerState) (errs : List Bool)
    (h : s.destroying = true) : destroySeq s errs = s := by
  induction errs with
  | nil => rfl
  | cons e rest ih =>
    show destroySeq (destroyCall e s) rest = s
    rw [destroyCall_of_destroying e s h]
    exact ih

/-- Claim C6: destroy is idempotent. For any nonempty sequence of destroy
calls on a live session, only the first is effective: after the deferred
finalizer runs, the trace holds exactly one close notification, preceded by
exactly one error notification precisely when the first call supplied an
error; the session ends destroyed and any further destroy call is a no-op. -/
theorem claim6_destroy_idempotent (s : PeerState) (e : Bool) (rest : List Bool)
    (h1 : s.destroyed = false) (h2 : s.destroying = false) (h3 : s.tasks = []) :
    (drain (destroySeq s (e :: rest))).2 =
      (if e then [Event.emitError] else []) ++ [Event.emitClose] ∧
    (drain (destroySeq s (e :: rest))).1.destroyed = true ∧
    (∀ e2, destroyCall e2 (drain (destroySeq s (e :: rest))).1 =
      (drain (destroySeq s (e :: rest))).1) := by
  have hfirst : destroyCall e s =
      { s with destroying := true, tasks := [Task.destroyFinalize e] } := by
    simp [destroyCall, h1, h2, h3]
  have hseq : destroySeq s (e :: rest) =
      { s with destroying := true, tasks := [Task.destroyFinalize e] } := by
    show destroySeq (destroyCall e s) rest = _
    rw [hfirst]
    exact destroySeq_of_destroying _ rest rfl
  rw [hseq]
  refine ⟨?_, ?_, ?_⟩
  · simp [drain, runTasks, runTask, runDestroyFinalize]
  · simp [drain, runTasks, runTask, runDestroyFinalize]
  · intro e2
    simp [drain, runTasks, runTask, runDestroyFinalize, destroyCall]

/-- Witness for claim C6 at a concrete input: three destroy calls on a fresh
session, the first with an error. -/
theorem claim6_destroy_idempotent_witness :
    (drain (destroySeq liveState (true :: [false, true]))).2 =
      (if true then [Event.emitError] else []) ++ [Event.emitClose] ∧
    (drain (destroySeq liveState (true :: [false, true]))).1.destroyed = true ∧
    (∀ e2, destroyCall e2 (drain (destroySeq liveState (true :: [false, true]))).1 =
      (drain (destroySeq liveState (true :: [false, true]))).1) :=
  claim6_destroy_idempotent liveState true [false, true] rfl rfl rfl

lemma signal_candOnly (s : PeerState) (c : Candidate)
    (h1 : s.destroying = false) (h2 : s.destroyed = false)
    (h3 : s.hasRemoteDescription = false) :
    signal false s (candOnly c) =
      ({ s with pendingCandidates := s.pendingCandidates ++ [c] }, []) := by
  simp [signal, candOnly, h1, h2, h3]

lemma signalMany_spec (cs : List Candidate) (s : PeerState)
    (h1 : s.destroying = false) (h2 : s.destroyed = false)
    (h3 : s.hasRemoteDescription = false) :
    signalMany s cs = { s with pendingCandidates := s.pendingCandidates ++ cs } := by
  induction cs generalizing s with
  | nil => simp [signalMany]
  | cons c rest ih =>
    show signalMany (signal false s (candOnly c)).1 rest = _
    rw [signal_candOnly s c h1 h2 h3]
    rw [ih { s with pendingCandidates := s.pendingCandidates ++ [c] } h1 h2 h3]
    simp

lemma handleRemoteDescSuccess_spec (s : PeerState) (dt : String)
    (h : s.destroyed = false) :
    handleRemoteDescSuccess s dt =
      ({ s with pendingCandidates := [], hasRemoteDescription := true },
        s.pendingCandidates.map Event.applyCandidate ++
          (if dt == "offer" then [Event.createAnswerStarted] else [])) := by
  by_cases hdt : dt = "offer"
  · simp [handleRemoteDescSuccess, h, hdt]
  · simp [handleRemoteDescSuccess, h, hdt]

/-- Claim C3: candidates signalled while no remote description has been
accepted are all appended to the pending-candidate buffer in arrival order;
once a remote description is accepted, the buffered candidates are applied in
that original order and the buffer is emptied, and the flush is effective
exactly once — a repeat acceptance applies no further buffered candidate. -/
theorem claim3_candidate_buffering (s : PeerState) (cs : List Candidate) (dt : String)
    (h1 : s.destroying = false) (h2 : s.destroyed = false)
    (h3 : s.hasRemoteDescription = false) (h4 : s.pendingCandidates = []) :
    (signalMany s cs).pendingCandidates = cs ∧
    (handleRemoteDescSuccess (signalMany s cs) dt).2 =
      cs.map Event.applyCandidate ++
        (if dt == "offer" then [Event.createAnswerStarted] else []) ∧
    (handleRemoteDescSuccess (signalMany s cs) dt).1.pendingCandidates = [] ∧
    (handleRemoteDescSuccess (handleRemoteDescSuccess (signalMany s cs) dt).1 dt).2 =
      (if dt == "offer" then [Event.createAnswerStarted] else []) := by
  rw [signalMany_spec cs s h1 h2 h3]
  rw [handleRemoteDescSuccess_spec _ dt (by simp [h2])]
  refine ⟨by simp [h4], by simp [h4], by simp, ?_⟩
  rw [handleRemoteDescSuccess_spec _ dt (by simp [h2])]
  simp

/-- Witness for claim C3 at a concrete input: two candidates buffered before
an offer is accepted. -/
theorem claim3_candidate_buffering_witness :
    (signalMany liveState [Candidate.mk "a", Candidate.mk "b"]).pendingCandidates =
      [Candidate.mk "a", Candidate.mk "b"] ∧
    (handleRemoteDescSuccess
        (signalMany liveState [Candidate.mk "a", Candidate.mk "b"]) "offer").2 =
      [Candidate.mk "a", Candidate.mk "b"].map Event.applyCandidate ++
        (if "offer" == "offer" then [Event.createAnswerStarted] else []) ∧
    (handleRemoteDescSuccess
        (signalMany liveState [Candidate.mk "a", Candidate.mk "b"]) "offer").1.pendingCandidates =
      [] ∧
    (handleRemoteDescSuccess
        (handleRemoteDescSuccess
          (signalMany liveState [Candidate.mk "a", Candidate.mk "b"]) "offer").1 "offer").2 =
      (if "offer" == "offer" then [Event.createAnswerStarted] else []) :=
  claim3_candidate_buffering liveState [Candidate.mk "a", Candidate.mk "b"] "offer"
    rfl rfl rfl rfl

/-- Claim C4: when readiness is confirmed with the pending-write slot
populated, the buffered chunk is handed to the transport send primitive, and
its callback completed, strictly before the connect notification is emitted;
a write issued after readiness produces its transport send strictly after
that, so a pre-connect write is sent before any post-connect write. -/
theorem claim4_pending_write_order (s : PeerState) (ch : Channel) (c w : Chunk) (i j : Nat)
    (hc : s.chunk = some c) (hcb : s.cb = some i)
    (h1 : s.destroying = false) (h2 : s.destroyed = false)
    (hch : s.channel = some ch) (hsf : ch.sendFails = false)
    (hbuf : ch.bufferedAmount ≤ 64 * 1024) :
    (readyStep s).2 = [Event.channelSend c, Event.cbCall i false, Event.emitConnect] ∧
    (write (readyStep s).1 w j).2 = [Event.channelSend w, Event.cbCall j false] := by
  have hnb : ¬ (ch.bufferedAmount > 64 * 1024) := by omega
  constructor
  · simp [readyStep, handlePendingChunk, sendAttempt, hc, hcb, h1, h2, hch, hsf]
  · simp [readyStep, handlePendingChunk, sendAttempt, setupBackpressureInterval,
      write, hc, hcb, h1, h2, hch, hsf, hnb]
    split <;> simp [write, sendAttempt, h1, h2, hch, hsf, hnb]

/-- Witness for claim C4 at a concrete input: a session with a buffered
pre-connect write becoming ready, followed by a post-connect write. -/
theorem claim4_pending_write_order_witness :
    (readyStep { liveState with
      chunk := some [1]
      cb := some 0
      channel := some (Channel.mk 0 true false) }).2 =
      [Event.channelSend [1], Event.cbCall 0 false, Event.emitConnect] ∧
    (write (readyStep { liveState with
      chunk := some [1]
      cb := some 0
      channel := some (Channel.mk 0 true false) }).1 [2] 1).2 =
      [Event.channelSend [2], Event.cbCall 1 false] :=
  claim4_pending_write_order
    { liveState with
      chunk := some [1]
      cb := some 0
      channel := some (Channel.mk 0 true false) }
    (Channel.mk 0 true false) [1] [2] 0 1 rfl rfl rfl rfl rfl rfl (by decide)

/-- Counterexample to claim C5 as stated: the fallback poll releases the
stored callback already when buffered bytes equal the 65536-byte
high-watermark, which is not strictly below it — the release condition is
"no longer above", not "below". -/
theorem claim5_backpressure_cex :
    (onIntervalFn { liveState with
      cb := some 0
      channel := some (Channel.mk 65536 false false) }).2 = [Event.cbCall 0 false] ∧
    ¬ (65536 < 65536) := by
  exact ⟨by decide, by decide⟩

/-- Claim C5 amended: for a write performed while connected, after a
successful transport send the completion callback is stored exactly when
buffered bytes exceed the 65536-byte high-watermark and otherwise invoked
immediately with no error; a stored callback is released exactly once (a
second release invocation is silent); the release fires only once buffered
bytes are no longer above the watermark (at or below 65536, not strictly
below); and the 150ms fallback poll is installed exactly when the native
buffered-amount-low feature is unsupported, so exactly one release mechanism
is active. -/
theorem claim5_backpressure_amended (s : PeerState) (ch : Channel) (c : Chunk) (i : Nat)
    (hcon : s.connected = true) (h1 : s.destroying = false) (h2 : s.destroyed = false)
    (hch : s.channel = some ch) (hsf : ch.sendFails = false) :
    (ch.bufferedAmount > 64 * 1024 →
      write s c i = ({ s with cb := some i }, [Event.channelSend c])) ∧
    (ch.bufferedAmount ≤ 64 * 1024 →
      write s c i = (s, [Event.channelSend c, Event.cbCall i false])) ∧
    (∀ s2 j, s2.destroyed = false → s2.cb = some j →
      (onChannelBufferedAmountLow s2).2 ++
        (onChannelBufferedAmountLow (onChannelBufferedAmountLow s2).1).2 =
        [Event.cbCall j false]) ∧
    (∀ s2 ch2 j, s2.cb = some j → s2.channel = some ch2 →
      ch2.bufferedAmount > 64 * 1024 → onIntervalFn s2 = (s2, [])) ∧
    (∀ s2 ch2 j, s2.cb = some j → s2.channel = some ch2 → s2.destroyed = false →
      ch2.bufferedAmount ≤ 64 * 1024 →
      onIntervalFn s2 = ({ s2 with cb := none }, [Event.cbCall j false])) ∧
    (∀ s2 ch2, s2.channel = some ch2 →
      setupBackpressureInterval s2 =
        if ch2.thresholdSupported then s2 else { s2 with intervalActive := true }) := by
  refine ⟨?_, ?_, ?_, ?_, ?_, ?_⟩
  · intro hb
    simp [write, sendAttempt, hcon, h1, h2, hch, hsf, hb]
  · intro hb
    have hnb : ¬ (ch.bufferedAmount > 64 * 1024) := by omega
    simp [write, sendAttempt, hcon, h1, h2, hch, hsf, hnb]
  · intro s2 j hd2 hcb2
    simp [onChannelBufferedAmountLow, hd2, hcb2]
  · intro s2 ch2 j hcb2 hch2 hb
    simp [onIntervalFn, hcb2, hch2, hb]
  · intro s2 ch2 j hcb2 hch2 hd2 hb
    have hnb : ¬ (ch2.bufferedAmount > 64 * 1024) := by omega
    simp [onIntervalFn, onChannelBufferedAmountLow, hcb2, hch2, hd2, hnb]
  · intro s2 ch2 hch2
    simp [setupBackpressureInterval, hch2]

/-- Witness for the amended claim C5 at a concrete input: a connected session
whose channel reports buffered bytes above the watermark stores the
callback. -/
theorem claim5_backpressure_amended_witness :
    write { liveState with
      connected := true
      channel := some (Channel.mk 70000 true false) } [1] 0 =
      ({ liveState with
        connected := true
        channel := some (Channel.mk 70000 true false)
        cb := some 0 },
        [Event.channelSend [1]]) :=
  (claim5_backpressure_amended
    { liveState with connected := true, channel := some (Channel.mk 70000 true false) }
    (Channel.mk 70000 true false) [1] 0 rfl rfl rfl rfl rfl).1 (by decide)

lemma firstCompleteRoundAux_of_allEmpty (fuel : Nat) :
    ∀ k, firstCompleteRoundAux (fun _ => ([] : List StatsItem)) k fuel = none := by
  induction fuel with
  | zero => intro k; rfl
  | succ n ih =>
    intro k
    have hw : shouldWaitRound ([] : List StatsItem) = true := by decide
    simp [firstCompleteRoundAux, hw]
    exact ih (k + 1)

/-- Counterexample to claim C1 as stated: the 100ms retry loop of
findCandidatePair is not bounded. Against the statistics oracle that keeps
answering with empty reports, no amount of fuel makes the loop complete —
it retries forever, so no bound on the number of attempts exists. -/
theorem claim1_bounded_retry_cex :
    ¬ ∃ N, (firstCompleteRound (fun _ => ([] : List StatsItem)) N).isSome = true := by
  rintro ⟨N, h⟩
  rw [firstCompleteRound, firstCompleteRoundAux_of_allEmpty N 0] at h
  simp at h

lemma firstCompleteRoundAux_spec (oracle : Nat → List StatsItem) (fuel : Nat) :
    ∀ k0 k, firstCompleteRoundAux oracle k0 fuel = some k →
      k0 ≤ k ∧ shouldWaitRound (oracle k) = false ∧
        ∀ j, k0 ≤ j → j < k → shouldWaitRound (oracle j) = true := by
  induction fuel with
  | zero => intro k0 k h; exact absurd h (by simp [firstCompleteRoundAux])
  | succ n ih =>
    intro k0 k h
    by_cases hw : shouldWaitRound (oracle k0) = true
    · rw [show firstCompleteRoundAux oracle k0 (n + 1) =
          firstCompleteRoundAux oracle (k0 + 1) n by simp [firstCompleteRoundAux, hw]] at h
      obtain ⟨hle, hstop, hall⟩ := ih (k0 + 1) k h
      refine ⟨by omega, hstop, ?_⟩
      intro j hj1 hj2
      rcases Nat.eq_or_lt_of_le hj1 with heq | hlt
      · rw [← heq]; exact hw
      · exact hall j hlt hj2
    · have hw2 : shouldWaitRound (oracle k0) = false := by
        cases hx : shouldWaitRound (oracle k0)
        · rfl
        · exact absurd hx hw
      rw [show firstCompleteRoundAux oracle k0 (n + 1) = some k0 by
        simp [firstCompleteRoundAux, hw2]] at h
      obtain rfl : k0 = k := by simpa using h
      exact ⟨Nat.le_refl _, hw2, fun j hj1 hj2 => by omega⟩

/-- Claim C1 amended: maybeReady is a no-op unless not connected, not already
confirming, transport-ready and channel-ready all hold, and then it only
enters the confirming state; the session becomes connected only at a
statistics round whose wait condition is false — every earlier round kept
waiting — and a round stops waiting precisely when the selected candidate
pair was found or a candidate pair exists with no local candidates; however
the 100ms retry loop is not bounded: it re-polls as long as the wait
condition holds. -/
theorem claim1_connected_gate :
    (∀ s, (s.connected = true ∨ s.connecting = true ∨ s.pcReady = false ∨
        s.channelReady = false) → maybeReady s = s) ∧
    (∀ s, s.connected = false → s.connecting = false → s.pcReady = true →
        s.channelReady = true → maybeReady s = { s with connecting := true }) ∧
    (∀ oracle N k, firstCompleteRound oracle N = some k →
        shouldWaitRound (oracle k) = false ∧
          ∀ j, j < k → shouldWaitRound (oracle j) = true) ∧
    (∀ items, shouldWaitRound items = false ↔
        (foundSelectedPair items = true ∨
          ((candidatePairIds items).isEmpty = false ∧
            (localCandidateIds items).isEmpty = true))) := by
  refine ⟨?_, ?_, ?_, ?_⟩
  · intro s h
    rcases h with h | h | h | h <;> simp [maybeReady, h]
  · intro s hcon hcing hpc hchan
    simp [maybeReady, hcon, hcing, hpc, hchan]
  · intro oracle N k h
    obtain ⟨_, hstop, hall⟩ := firstCompleteRoundAux_spec oracle N 0 k h
    exact ⟨hstop, fun j hj => hall j (Nat.zero_le _) hj⟩
  · intro items
    cases hf : foundSelectedPair items <;>
      cases hp : (candidatePairIds items).isEmpty <;>
        cases hl : (localCandidateIds items).isEmpty <;>
          simp [shouldWaitRound, hf, hp, hl]

/-- Witness for the amended claim C1 at concrete inputs: maybeReady is inert
while channel-ready is missing, enters confirming when all four conditions
hold, and an oracle answering with an active googCandidatePair completes at
round zero. -/
theorem claim1_connected_gate_witness :
    maybeReady { liveState with pcReady := true } = { liveState with pcReady := true } ∧
    maybeReady { liveState with pcReady := true, channelReady := true } =
      { liveState with pcReady := true, channelReady := true, connecting := true } ∧
    (shouldWaitRound
        ((fun _ => [StatsItem.mk "googCandidatePair" "p" none false true]) 0) = false ∧
      ∀ j, j < 0 → shouldWaitRound
        ((fun _ => [StatsItem.mk "googCandidatePair" "p" none false true]) j) = true) :=
  ⟨claim1_connected_gate.1 { liveState with pcReady := true } (Or.inr (Or.inr (Or.inr rfl))),
   claim1_connected_gate.2.1 { liveState with pcReady := true, channelReady := true }
     rfl rfl rfl rfl,
   claim1_connected_gate.2.2.1
     (fun _ => [StatsItem.mk "googCandidatePair" "p" none false true]) 1 0 (by decide)⟩

end PeerPressure
